import Mathlib

/-!
Verification of the CryptAPI NodeJS client library.

This file gives a shallow embedding of the library's functional core and
proves/refutes the behavioral claims about it:

* `fetchData` (src/fetch.ts): the response normalizer, modelled as a function
  from a transport outcome (network failure / HTTP response with status and
  optional parsed JSON body) to the thrown-or-returned result.
* `processServiceInfo` (src/utils.ts): the nested coin-info flattener.
* `fetchSupportedCoins`, `getAddress`, `checkLogs`, `fetchQRCode`,
  `makeRequest` (src/index.ts): the facade operations, modelled as pure
  functions over an explicit instance state and an explicit transport.

JavaScript runtime values are modelled by the `Json` type.  A JS object is a
list of key/value pairs in property-enumeration order; a JS array carries its
elements plus any extra string-keyed properties that were assigned to it.
Machine details that no claim depends on (prototype-chain lookups,
integer-index string keys on arrays for the fixed non-numeric keys used by the
library, percent-encoding performed by the WHATWG URL class) are modelled at
the granularity noted on each definition.
-/

/-- A JavaScript runtime value as produced by `JSON.parse` and manipulated by
the library.  `arr` carries the array elements and the extra string-keyed
(non-index) properties assigned to the array object after parsing. -/
inductive Json where
  | null
  | bool (b : Bool)
  | num (n : Int)
  | str (s : String)
  | arr (elems : List Json) (props : List (String × Json))
  | obj (fields : List (String × Json))

mutual

/-- Structural weight of a `Json` value, used as a termination measure. -/
def Json.weight : Json → Nat
  | .null => 1
  | .bool _ => 1
  | .num _ => 1
  | .str _ => 1
  | .arr xs ps => 1 + Json.weightList xs + Json.weightFields ps
  | .obj fs => 1 + Json.weightFields fs

/-- Weight of a list of `Json` values. -/
def Json.weightList : List Json → Nat
  | [] => 0
  | x :: t => 1 + Json.weight x + Json.weightList t

/-- Weight of a field list. -/
def Json.weightFields : List (String × Json) → Nat
  | [] => 0
  | kv :: t => 1 + Json.weight kv.2 + Json.weightFields t

end

mutual

/-- Boolean equality on `Json` values. -/
def Json.beq : Json → Json → Bool
  | .null, .null => true
  | .bool a, .bool b => a == b
  | .num a, .num b => a == b
  | .str a, .str b => a == b
  | .arr xs ps, .arr ys qs => Json.beq.beqList xs ys && Json.beq.beqFields ps qs
  | .obj fs, .obj gs => Json.beq.beqFields fs gs
  | _, _ => false

/-- Boolean equality on lists of `Json` values. -/
def Json.beq.beqList : List Json → List Json → Bool
  | [], [] => true
  | x :: xs, y :: ys => Json.beq x y && Json.beq.beqList xs ys
  | _, _ => false

/-- Boolean equality on field lists. -/
def Json.beq.beqFields : List (String × Json) → List (String × Json) → Bool
  | [], [] => true
  | kv :: xs, lw :: ys => kv.1 == lw.1 && Json.beq kv.2 lw.2 && Json.beq.beqFields xs ys
  | _, _ => false

end

mutual

theorem Json.beq_iff : ∀ a b : Json, Json.beq a b = true ↔ a = b
  | .null, .null => by simp [Json.beq]
  | .null, .bool _ => by simp [Json.beq]
  | .null, .num _ => by simp [Json.beq]
  | .null, .str _ => by simp [Json.beq]
  | .null, .arr _ _ => by simp [Json.beq]
  | .null, .obj _ => by simp [Json.beq]
  | .bool _, .null => by simp [Json.beq]
  | .bool a, .bool b => by simp [Json.beq]
  | .bool _, .num _ => by simp [Json.beq]
  | .bool _, .str _ => by simp [Json.beq]
  | .bool _, .arr _ _ => by simp [Json.beq]
  | .bool _, .obj _ => by simp [Json.beq]
  | .num _, .null => by simp [Json.beq]
  | .num _, .bool _ => by simp [Json.beq]
  | .num a, .num b => by simp [Json.beq]
  | .num _, .str _ => by simp [Json.beq]
  | .num _, .arr _ _ => by simp [Json.beq]
  | .num _, .obj _ => by simp [Json.beq]
  | .str _, .null => by simp [Json.beq]
  | .str _, .bool _ => by simp [Json.beq]
  | .str _, .num _ => by simp [Json.beq]
  | .str a, .str b => by simp [Json.beq]
  | .str _, .arr _ _ => by simp [Json.beq]
  | .str _, .obj _ => by simp [Json.beq]
  | .arr _ _, .null => by simp [Json.beq]
  | .arr _ _, .bool _ => by simp [Json.beq]
  | .arr _ _, .num _ => by simp [Json.beq]
  | .arr _ _, .str _ => by simp [Json.beq]
  | .arr xs ps, .arr ys qs => by
    simp [Json.beq, Json.beq_iff.beqList_iff xs ys, Json.beq_iff.beqFields_iff ps qs]
  | .arr _ _, .obj _ => by simp [Json.beq]
  | .obj _, .null => by simp [Json.beq]
  | .obj _, .bool _ => by simp [Json.beq]
  | .obj _, .num _ => by simp [Json.beq]
  | .obj _, .str _ => by simp [Json.beq]
  | .obj _, .arr _ _ => by simp [Json.beq]
  | .obj fs, .obj gs => by simp [Json.beq, Json.beq_iff.beqFields_iff fs gs]

theorem Json.beq_iff.beqList_iff : ∀ a b : List Json, Json.beq.beqList a b = true ↔ a = b
  | [], [] => by simp [Json.beq.beqList]
  | [], _ :: _ => by simp [Json.beq.beqList]
  | _ :: _, [] => by simp [Json.beq.beqList]
  | x :: xs, y :: ys => by
    simp [Json.beq.beqList, Json.beq_iff x y, Json.beq_iff.beqList_iff xs ys]

theorem Json.beq_iff.beqFields_iff :
    ∀ a b : List (String × Json), Json.beq.beqFields a b = true ↔ a = b
  | [], [] => by simp [Json.beq.beqFields]
  | [], _ :: _ => by simp [Json.beq.beqFields]
  | _ :: _, [] => by simp [Json.beq.beqFields]
  | kv :: xs, lw :: ys => by
    obtain ⟨k, v⟩ := kv
    obtain ⟨l, w⟩ := lw
    simp [Json.beq.beqFields, Json.beq_iff v w, Json.beq_iff.beqFields_iff xs ys, and_assoc]

end

instance : DecidableEq Json := fun a b =>
  decidable_of_iff (Json.beq a b = true) (Json.beq_iff a b)

/-- JS truthiness of a value (`if (value)`).  `NaN` does not arise because
numbers are modelled as integers. -/
def isTruthy : Json → Bool
  | .null => false
  | .bool b => b
  | .num n => n != 0
  | .str s => s != ""
  | .arr _ _ => true
  | .obj _ => true

/-- Whether `typeof value === "object"` holds; in JS this is true for objects,
arrays and `null`. -/
def isTypeofObject : Json → Bool
  | .null => true
  | .bool _ => false
  | .num _ => false
  | .str _ => false
  | .arr _ _ => true
  | .obj _ => true

/-- A non-null object or array: `value && typeof value === "object"`. -/
def isObjectLike (v : Json) : Bool :=
  isTruthy v && isTypeofObject v

/-- The own-property check `key in value` for the fixed non-numeric keys the
library uses ("status", "error", "ticker"), so integer-index keys of arrays
and prototype-chain properties are out of scope. -/
def jsHasOwn (j : Json) (k : String) : Bool :=
  match j with
  | .obj fs => fs.any (fun kv => kv.1 == k)
  | .arr _ ps => ps.any (fun kv => kv.1 == k)
  | _ => false

/-- Property read `value[key]` for the fixed non-numeric keys the library
uses; an absent key yields `undefined`, modelled as `Json.null`. -/
def jsGetProp (j : Json) (k : String) : Json :=
  match j with
  | .obj fs => ((fs.find? (fun kv => kv.1 == k)).map Prod.snd).getD .null
  | .arr _ ps => ((ps.find? (fun kv => kv.1 == k)).map Prod.snd).getD .null
  | _ => .null

/-- Strict equality of a value with a string literal (`value === "lit"`). -/
def jsIsStr (j : Json) (s : String) : Bool :=
  match j with
  | .str t => t == s
  | _ => false

/-- JS object property assignment `target[k] = v` on a field list: an existing
key is updated in place (enumeration order kept), a new key is appended. -/
def setField (fs : List (String × Json)) (k : String) (v : Json) : List (String × Json) :=
  if fs.any (fun kv => kv.1 == k) then
    fs.map (fun kv => if kv.1 == k then (k, v) else kv)
  else
    fs ++ [(k, v)]

/-- Property assignment `j[k] = v` for a non-numeric key `k` (the library only
assigns the literal key "status").  Objects and arrays accept the assignment;
on a primitive or `null` receiver strict-mode JS throws a `TypeError`,
modelled as `Except.error ()`. -/
def jsSetProp (j : Json) (k : String) (v : Json) : Except Unit Json :=
  match j with
  | .obj fs => .ok (.obj (setField fs k v))
  | .arr xs ps => .ok (.arr xs (setField ps k v))
  | _ => .error ()

/-- `Object.entries(value)` for the receivers the library iterates (objects
and arrays; for arrays the index keys come first, then assigned string
properties).  The library never calls it on primitives or strings, for which
it returns `[]` here. -/
def jsEntries : Json → List (String × Json)
  | .obj fs => fs
  | .arr xs ps => (xs.enum.map (fun p => (toString p.1, p.2))) ++ ps
  | _ => []

mutual

/-- JS `String(value)` as used by `new Error(value)`: strings unchanged,
numbers/booleans/null printed, plain objects render as "[object Object]",
arrays render via `Array.prototype.join(",")`. -/
def jsToString : Json → String
  | .null => "null"
  | .bool b => if b then "true" else "false"
  | .num n => toString n
  | .str s => s
  | .arr xs _ => jsToString.joinElems xs
  | .obj _ => "[object Object]"

/-- `Array.prototype.join(",")` over the rendered elements. -/
def jsToString.joinElems : List Json → String
  | [] => ""
  | [x] => jsToString.elemString x
  | x :: rest => jsToString.elemString x ++ "," ++ jsToString.joinElems rest

/-- An element as rendered by `join`: `null` renders empty, others as
`String(element)`. -/
def jsToString.elemString : Json → String
  | .null => ""
  | .bool b => if b then "true" else "false"
  | .num n => toString n
  | .str s => s
  | .arr xs _ => jsToString.joinElems xs
  | .obj _ => "[object Object]"

end

/-- A reason the normalizer throws: the `fetch` promise rejected, `res.json()`
rejected (unparsable body), a strict-mode `TypeError` (property assignment on
a primitive receiver, or the `in` operator applied to a truthy primitive), or
an explicit `new Error(message)`. -/
inductive JsError where
  | networkError
  | parseError
  | typeError
  | error (msg : String)
deriving DecidableEq

/-- Outcome of the transport layer for one GET request: the `fetch` call
rejects, or it resolves with an HTTP status code and a body that either
parses to a JSON value or fails to parse (`none`). -/
inductive Transport where
  | netFail
  | response (status : Nat) (body : Option Json)
deriving DecidableEq

/-- Result of `fetchData`: a thrown error or the returned (success) body. -/
inductive FetchOutcome where
  | err (e : JsError)
  | ok (body : Json)
deriving DecidableEq

/-- `res.ok`: HTTP status in the inclusive range 200-299. -/
def resOk (status : Nat) : Bool :=
  200 ≤ status && status ≤ 299

/-- The success-shape validator from src/fetch.ts: the value is truthy, has
`typeof === "object"`, has a `status` property, and that property strictly
equals "success". -/
def isValidSuccessResp (response : Json) : Bool :=
  isTruthy response && isTypeofObject response && jsHasOwn response "status" &&
    jsIsStr (jsGetProp response "status") "success"

/-- The response normalizer `fetchData` from src/fetch.ts.  On a rejected
fetch or an unparsable body the corresponding error propagates.  On a non-2xx
status it throws `new Error` with the body's `error` property if
`resp && "error" in resp` holds, else the generic message; the `in` operator
on a truthy primitive throws a `TypeError`.  On a 2xx status it first assigns
`resp["status"] = "success"`, then validates with `isValidSuccessResp` and
returns the body (the catch block rethrows, leaving the thrown value
unchanged). -/
def fetchData : Transport → FetchOutcome
  | .netFail => .err .networkError
  | .response _ none => .err .parseError
  | .response status (some resp) =>
    if !(resOk status) then
      if isTruthy resp then
        if isTypeofObject resp then
          .err (.error (if jsHasOwn resp "error" then jsToString (jsGetProp resp "error")
                        else "HTTP error! Status: " ++ toString status))
        else .err .typeError
      else .err (.error ("HTTP error! Status: " ++ toString status))
    else
      match jsSetProp resp "status" (Json.str "success") with
      | .error _ => .err .typeError
      | .ok resp2 =>
        if isValidSuccessResp resp2 then .ok resp2
        else .err (.error "Invalid success response structure")

/-- Sum of the weights of the values in an entry list; with the list length it
bounds the work remaining in the flattener. -/
def entriesWeight (es : List (String × Json)) : Nat :=
  (es.map (fun kv => Json.weight kv.2)).sum

theorem Json.weight_pos (j : Json) : 0 < Json.weight j := by
  cases j <;> simp [Json.weight]

theorem entriesWeight_fields_le (fs : List (String × Json)) :
    entriesWeight fs + fs.length ≤ Json.weightFields fs := by
  induction fs with
  | nil => simp [entriesWeight, Json.weightFields]
  | cons kv t ih =>
    simp only [entriesWeight, List.map_cons, List.sum_cons, Json.weightFields,
      List.length_cons] at *
    omega

theorem entriesWeight_enum_map (xs : List Json) :
    entriesWeight (xs.enum.map (fun p => (toString p.1, p.2)))
      = (xs.map (fun x => Json.weight x)).sum := by
  unfold entriesWeight
  have h : ∀ n : Nat, ((List.enumFrom n xs).map (fun p => (toString p.1, p.2))).map
      (fun kv => Json.weight kv.2) = xs.map (fun x => Json.weight x) := by
    induction xs with
    | nil => intro n; simp
    | cons x t ih => intro n; simp [List.enumFrom, ih]
  exact congrArg List.sum (h 0)

theorem Json.weightList_eq_sum (xs : List Json) :
    Json.weightList xs = (xs.map (fun x => Json.weight x)).sum + xs.length := by
  induction xs with
  | nil => simp [Json.weightList]
  | cons x t ih => simp [Json.weightList, ih]; omega

/-- The entries of a value weigh strictly less than the value itself. -/
theorem jsEntries_weight_lt (v : Json) :
    entriesWeight (jsEntries v) + (jsEntries v).length < Json.weight v := by
  cases v with
  | obj fs =>
    have := entriesWeight_fields_le fs
    simp only [jsEntries, Json.weight]
    omega
  | arr xs ps =>
    have h2 := entriesWeight_fields_le ps
    have h3 := entriesWeight_enum_map xs
    have h4 := Json.weightList_eq_sum xs
    simp only [jsEntries, Json.weight, entriesWeight, List.map_append, List.sum_append,
      List.length_append, List.length_map, List.enum_length] at *
    omega
  | null => simp [jsEntries, entriesWeight, Json.weight]
  | bool b => simp [jsEntries, entriesWeight, Json.weight]
  | num n => simp [jsEntries, entriesWeight, Json.weight]
  | str s => simp [jsEntries, entriesWeight, Json.weight]

/-- Whether the flattener treats a value as a coin record:
`value && typeof value === "object" && "ticker" in value`. -/
def isCoinRecord (v : Json) : Bool :=
  isTruthy v && isTypeofObject v && jsHasOwn v "ticker"

/-- The loop body of `processServiceInfo` from src/utils.ts, iterating
`Object.entries`: a coin record contributes `coins[pre + key] = value.ticker`;
any other non-null object is recursed into with prefix `pre + key + "_"`;
scalars and `null` are skipped. -/
def processEntries (es : List (String × Json)) (coins : List (String × Json)) (pre : String) :
    List (String × Json) :=
  match es with
  | [] => coins
  | (k, v) :: rest =>
    processEntries rest
      (if isCoinRecord v then setField coins (pre ++ k) (jsGetProp v "ticker")
       else if isObjectLike v then processEntries (jsEntries v) coins (pre ++ k ++ "_")
       else coins) pre
termination_by entriesWeight es + es.length
decreasing_by
  · have := jsEntries_weight_lt v
    simp only [entriesWeight, List.map_cons, List.sum_cons, List.length_cons] at *
    omega
  · have := Json.weight_pos v
    simp only [entriesWeight, List.map_cons, List.sum_cons, List.length_cons]
    omega

/-- `processServiceInfo(info, coins, prefix)` from src/utils.ts: flatten the
nested service-info value into the accumulator `coins`. -/
def processServiceInfo (info : Json) (coins : List (String × Json)) (pre : String := "") :
    List (String × Json) :=
  processEntries (jsEntries info) coins pre

/-- Specification-side description of the flattener's output: the list of
`(flattened path, ticker)` entries, one per coin record, discovered
depth-first in entry order, with `pre + key + "_"` as the prefix of a
recursed-into grouping node and nothing recorded for scalars or null. -/
def collectEntries (pre : String) (es : List (String × Json)) : List (String × Json) :=
  match es with
  | [] => []
  | (k, v) :: rest =>
    (if isCoinRecord v then [(pre ++ k, jsGetProp v "ticker")]
     else if isObjectLike v then collectEntries (pre ++ k ++ "_") (jsEntries v)
     else []) ++ collectEntries pre rest
termination_by entriesWeight es + es.length
decreasing_by
  · have := jsEntries_weight_lt v
    simp only [entriesWeight, List.map_cons, List.sum_cons, List.length_cons] at *
    omega
  · have := Json.weight_pos v
    simp only [entriesWeight, List.map_cons, List.sum_cons, List.length_cons]
    omega

/-- The `(path, ticker)` entries the flattener discovers in `j` under prefix
`pre`, in discovery order. -/
def collectTickers (pre : String) (j : Json) : List (String × Json) :=
  collectEntries pre (jsEntries j)

/-- Number of coin records (leaf objects with a `ticker` property) reachable
from an entry list through non-coin object-like values. -/
def countEntries (es : List (String × Json)) : Nat :=
  match es with
  | [] => 0
  | (_, v) :: rest =>
    (if isCoinRecord v then 1
     else if isObjectLike v then countEntries (jsEntries v)
     else 0) + countEntries rest
termination_by entriesWeight es + es.length
decreasing_by
  · have := jsEntries_weight_lt v
    simp only [entriesWeight, List.map_cons, List.sum_cons, List.length_cons] at *
    omega
  · have := Json.weight_pos v
    simp only [entriesWeight, List.map_cons, List.sum_cons, List.length_cons]
    omega

/-- Number of coin-record leaves of a service-info value. -/
def countTickerLeaves (j : Json) : Nat :=
  countEntries (jsEntries j)

/-- One JS-assignment step of the accumulator, as an uncurried fold step. -/
def setKV (m : List (String × Json)) (kv : String × Json) : List (String × Json) :=
  setField m kv.1 kv.2

/-- Rest destructuring `const { fee_tiers, ...resp } = j`: the own enumerable
entries of `j` except the excluded key, collected into a fresh object. -/
def jsRestExclude (j : Json) (k : String) : Json :=
  .obj ((jsEntries j).filter (fun kv => kv.1 != k))

/-- `fetchSupportedCoins` from src/index.ts, as a function of the outcome of
the underlying info request: any error thrown inside the `try` (network
failure, parse failure, non-2xx error, invalid structure, or the
rest-destructuring of a null body) is caught and `null` is returned; on
success the body minus its top-level `fee_tiers` key is flattened into a
fresh accumulator. -/
def fetchSupportedCoins (t : Transport) : Option (List (String × Json)) :=
  match fetchData t with
  | .err _ => none
  | .ok .null => none
  | .ok body => some (processServiceInfo (jsRestExclude body "fee_tiers") [] "")

/-- JS `coin.replace("_", "/")` on the character list: a string pattern
replaces only the first occurrence. -/
def replaceFirstUnderscoreList : List Char → List Char
  | [] => []
  | c :: cs => if c = '_' then '/' :: cs else c :: replaceFirstUnderscoreList cs

/-- `coin.replace("_", "/")` at the string level. -/
def replaceUnderscoreOnce (s : String) : String :=
  ⟨replaceFirstUnderscoreList s.data⟩

/-- The fixed API host from src/index.ts. -/
def baseURL : String :=
  "https://api.cryptapi.io"

/-- The URL path built by `makeRequest`: `new URL(baseURL).pathname` is "/",
and the endpoint segment is appended after the coin segment when a truthy
coin is given (`coin.replace("_", "/")` splits a compound identifier once).
Percent-encoding applied by the URL class to exotic characters is not
modelled; the library only passes plain identifiers. -/
def makeRequestPath (endpoint : String) (coin : Option String) : String :=
  "/" ++ (match coin with
    | some c => if c = "" then endpoint ++ "/" else replaceUnderscoreOnce c ++ "/" ++ endpoint ++ "/"
    | none => endpoint ++ "/")

/-- An outbound GET request as assembled by `makeRequest`: the endpoint, the
optional coin identifier, and the query parameters in append order. -/
structure Request where
  endpoint : String
  coin : Option String
  params : List (String × Json)
deriving DecidableEq

/-- The state of one `CryptAPI` instance: the five constructor fields
(readonly in the TS source) plus the mutable `paymentAddress`, initialised to
`""` and holding whatever `address_in` value the create call returned. -/
structure CryptAPIState where
  coin : String
  ownAddress : String
  callbackUrl : String
  parameters : List (String × Json)
  caParams : List (String × Json)
  paymentAddress : Json
deriving DecidableEq

/-- The callback URL sent to the gateway: `new URL(this.callbackUrl)` with
every string- or number-valued entry of `parameters` appended via
`searchParams.append`, then `encodeURI`.  Rendered canonically as the base
string followed by the appended pairs; no claim depends on URL syntax
details. -/
def buildCallback (cb : String) (ps : List (String × Json)) : String :=
  cb ++ ps.foldl (fun acc kv =>
    match kv.2 with
    | .str s => acc ++ "&" ++ kv.1 ++ "=" ++ s
    | .num n => acc ++ "&" ++ kv.1 ++ "=" ++ toString n
    | _ => acc) ""

/-- The local phase of `getAddress` from src/index.ts: the three guard checks
in source order, then the create request with params
`{...caParams, callback, address}` (object spread, so `callback` and
`address` override same-named gateway options). -/
def getAddressRequest (st : CryptAPIState) : Except String Request :=
  if st.coin = "" then .error "Coin not set"
  else if st.callbackUrl = "" then .error "Callback URL not set"
  else if st.ownAddress = "" then .error "Address not set"
  else .ok
    { endpoint := "create", coin := some st.coin,
      params := setField
        (setField st.caParams "callback" (.str (buildCallback st.callbackUrl st.parameters)))
        "address" (.str st.ownAddress) }

/-- `getAddress` as a state transformer over an explicit transport: a failed
guard throws without consulting the transport; a thrown transport error
propagates unchanged; on success `paymentAddress` is set to the body's
`address_in` property, which is also returned. -/
def getAddress (st : CryptAPIState) (transport : Request → Transport) :
    CryptAPIState × Except JsError Json :=
  match getAddressRequest st with
  | .error msg => (st, .error (.error msg))
  | .ok req =>
    match fetchData (transport req) with
    | .err e => (st, .error e)
    | .ok body =>
      ({ st with paymentAddress := jsGetProp body "address_in" }, .ok (jsGetProp body "address_in"))

/-- The local phase of `checkLogs`: the combined guard, then the logs request
with the encoded callback as sole parameter. -/
def checkLogsRequest (st : CryptAPIState) : Except String Request :=
  if st.coin = "" || st.callbackUrl = "" then .error "Coin or callback URL not set"
  else .ok
    { endpoint := "logs", coin := some st.coin,
      params := [("callback", .str (buildCallback st.callbackUrl st.parameters))] }

/-- `checkLogs` over an explicit transport; it reads but never writes the
instance state. -/
def checkLogs (st : CryptAPIState) (transport : Request → Transport) :
    CryptAPIState × Except JsError Json :=
  match checkLogsRequest st with
  | .error msg => (st, .error (.error msg))
  | .ok req =>
    match fetchData (transport req) with
    | .err e => (st, .error e)
    | .ok body => (st, .ok body)

/-- The local phase of `fetchQRCode` from src/index.ts: guards on `coin` and
`ownAddress` (not on `paymentAddress`), then the qrcode request carrying
`value`, `size` and the stored payment address. -/
def fetchQRCodeRequest (st : CryptAPIState) (value : Json) (size : Int) :
    Except String Request :=
  if st.coin = "" then .error "Coin not set"
  else if st.ownAddress = "" then .error "Address not set"
  else .ok
    { endpoint := "qrcode", coin := some st.coin,
      params := [("value", value), ("size", .num size), ("address", st.paymentAddress)] }

/-- `fetchQRCode` over an explicit transport; it reads but never writes the
instance state. -/
def fetchQRCode (st : CryptAPIState) (value : Json) (size : Int)
    (transport : Request → Transport) : CryptAPIState × Except JsError Json :=
  match fetchQRCodeRequest st value size with
  | .error msg => (st, .error (.error msg))
  | .ok req =>
    match fetchData (transport req) with
    | .err e => (st, .error e)
    | .ok body => (st, .ok body)

/-- The value of a query parameter of an assembled request. -/
def lookupParam (req : Request) (k : String) : Option Json :=
  (req.params.find? (fun kv => kv.1 == k)).map Prod.snd

theorem find_map_replace (fs : List (String × Json)) (k : String) (v : Json)
    (h : fs.any (fun kv => kv.1 == k) = true) :
    (fs.map (fun kv => if kv.1 == k then (k, v) else kv)).find? (fun kv => kv.1 == k)
      = some (k, v) := by
  induction fs with
  | nil => simp at h
  | cons a t ih =>
    simp only [List.map_cons]
    by_cases ha : a.1 == k
    · rw [if_pos ha]
      rw [List.find?_cons_of_pos]
      simp
    · rw [if_neg ha]
      rw [List.find?_cons_of_neg _ (by simpa using ha)]
      apply ih
      simp only [List.any_cons, ha, Bool.false_or] at h
      exact h

theorem find_append_single (fs : List (String × Json)) (k : String) (v : Json)
    (h : fs.any (fun kv => kv.1 == k) = false) :
    (fs ++ [(k, v)]).find? (fun kv => kv.1 == k) = some (k, v) := by
  induction fs with
  | nil =>
    rw [List.nil_append, List.find?_cons_of_pos]
    simp
  | cons a t ih =>
    simp only [List.any_cons, Bool.or_eq_false_iff] at h
    rw [List.cons_append, List.find?_cons_of_neg _ (by simp [h.1])]
    exact ih (by simp [h.2])

theorem find_setField_self (fs : List (String × Json)) (k : String) (v : Json) :
    (setField fs k v).find? (fun kv => kv.1 == k) = some (k, v) := by
  unfold setField
  split
  next h => exact find_map_replace fs k v h
  next h => exact find_append_single fs k v (by rwa [Bool.not_eq_true] at h)

theorem any_setField_self (fs : List (String × Json)) (k : String) (v : Json) :
    (setField fs k v).any (fun kv => kv.1 == k) = true :=
  List.any_eq_true.mpr
    ⟨(k, v), List.mem_of_find?_eq_some (find_setField_self fs k v), by simp⟩

theorem isValidSuccessResp_after_set (resp r2 : Json)
    (h : jsSetProp resp "status" (Json.str "success") = .ok r2) :
    isValidSuccessResp r2 = true := by
  cases resp with
  | obj fs =>
    simp only [jsSetProp, Except.ok.injEq] at h
    subst h
    simp [isValidSuccessResp, isTruthy, isTypeofObject, jsHasOwn, jsGetProp,
      any_setField_self, find_setField_self, jsIsStr]
  | arr xs ps =>
    simp only [jsSetProp, Except.ok.injEq] at h
    subst h
    simp [isValidSuccessResp, isTruthy, isTypeofObject, jsHasOwn, jsGetProp,
      any_setField_self, find_setField_self, jsIsStr]
  | null => simp [jsSetProp] at h
  | bool b => simp [jsSetProp] at h
  | num n => simp [jsSetProp] at h
  | str s => simp [jsSetProp] at h

theorem fetchData_ok_valid (t : Transport) (b : Json) (h : fetchData t = .ok b) :
    isValidSuccessResp b = true := by
  cases t with
  | netFail => simp [fetchData] at h
  | response status body =>
    cases body with
    | none => simp [fetchData] at h
    | some resp =>
      by_cases hok : resOk status = true
      · cases hset : jsSetProp resp "status" (Json.str "success") with
        | error e => simp [fetchData, hok, hset] at h
        | ok r2 =>
          have hval := isValidSuccessResp_after_set resp r2 hset
          simp only [fetchData, hok, Bool.not_true, Bool.false_eq_true, if_false, hset,
            hval, if_true, FetchOutcome.ok.injEq] at h
          exact h ▸ hval
      · have hok2 : resOk status = false := by simpa using hok
        by_cases ht : isTruthy resp = true
        · by_cases hto : isTypeofObject resp = true
          · simp [fetchData, hok2, ht, hto] at h
          · simp [fetchData, hok2, ht, hto] at h
        · simp [fetchData, hok2, ht] at h

theorem fetchData_ok_objectLike (t : Transport) (b : Json) (h : fetchData t = .ok b) :
    isObjectLike b = true := by
  have hv := fetchData_ok_valid t b h
  simp only [isValidSuccessResp, Bool.and_eq_true] at hv
  simp [isObjectLike, hv.1.1.1, hv.1.1.2]

theorem fetchData_2xx_objectLike (status : Nat) (resp : Json)
    (hok : resOk status = true) (hobj : isObjectLike resp = true) :
    ∃ r2, jsSetProp resp "status" (Json.str "success") = .ok r2 ∧
      fetchData (.response status (some resp)) = .ok r2 := by
  cases resp with
  | obj fs =>
    refine ⟨.obj (setField fs "status" (Json.str "success")), rfl, ?_⟩
    simp only [fetchData, hok, Bool.not_true, Bool.false_eq_true, if_false, jsSetProp]
    rw [if_pos (isValidSuccessResp_after_set (.obj fs) _ rfl)]
  | arr xs ps =>
    refine ⟨.arr xs (setField ps "status" (Json.str "success")), rfl, ?_⟩
    simp only [fetchData, hok, Bool.not_true, Bool.false_eq_true, if_false, jsSetProp]
    rw [if_pos (isValidSuccessResp_after_set (.arr xs ps) _ rfl)]
  | null => simp [isObjectLike, isTruthy] at hobj
  | bool b => simp [isObjectLike, isTypeofObject] at hobj
  | num n => simp [isObjectLike, isTypeofObject] at hobj
  | str s => simp [isObjectLike, isTypeofObject] at hobj

theorem fetchData_2xx_never_invalid (status : Nat) (body : Option Json)
    (hok : resOk status = true) :
    fetchData (.response status body) ≠ .err (.error "Invalid success response structure") := by
  cases body with
  | none => simp [fetchData]
  | some resp =>
    simp only [fetchData, hok, Bool.not_true, Bool.false_eq_true, if_false]
    cases hset : jsSetProp resp "status" (Json.str "success") with
    | error e => simp
    | ok r2 => simp [isValidSuccessResp_after_set resp r2 hset]

theorem processEntries_eq_foldl_aux :
    ∀ n es, entriesWeight es + es.length < n → ∀ coins pre,
      processEntries es coins pre = (collectEntries pre es).foldl setKV coins := by
  intro n
  induction n with
  | zero => intro es h; omega
  | succ n ih =>
    intro es h coins pre
    cases es with
    | nil => simp [processEntries, collectEntries]
    | cons kv rest =>
      obtain ⟨k, v⟩ := kv
      have hrest : entriesWeight rest + rest.length < n := by
        have := Json.weight_pos v
        simp only [entriesWeight, List.map_cons, List.sum_cons, List.length_cons] at h
        simp only [entriesWeight]
        omega
      simp only [processEntries, collectEntries, List.foldl_append]
      by_cases hc : isCoinRecord v = true
      · simp only [hc, if_true, List.foldl_cons, List.foldl_nil]
        rw [ih rest hrest]
        rfl
      · by_cases ho : isObjectLike v = true
        · have hv : entriesWeight (jsEntries v) + (jsEntries v).length < n := by
            have h1 := jsEntries_weight_lt v
            simp only [entriesWeight, List.map_cons, List.sum_cons, List.length_cons] at h
            simp only [entriesWeight] at h1 ⊢
            omega
          simp only [hc, ho, if_true, if_false, Bool.false_eq_true]
          rw [ih rest hrest, ih (jsEntries v) hv]
        · simp only [hc, ho, if_false, Bool.false_eq_true, List.foldl_nil]
          rw [ih rest hrest]

/-- The flattener is the `setField`-fold of its specification-side entry
list. -/
theorem processEntries_eq_foldl (es coins : List (String × Json)) (pre : String) :
    processEntries es coins pre = (collectEntries pre es).foldl setKV coins :=
  processEntries_eq_foldl_aux (entriesWeight es + es.length + 1) es (by omega) coins pre

theorem collectEntries_length_aux :
    ∀ n es, entriesWeight es + es.length < n → ∀ pre,
      (collectEntries pre es).length = countEntries es := by
  intro n
  induction n with
  | zero => intro es h; omega
  | succ n ih =>
    intro es h pre
    cases es with
    | nil => simp [collectEntries, countEntries]
    | cons kv rest =>
      obtain ⟨k, v⟩ := kv
      have hrest : entriesWeight rest + rest.length < n := by
        have := Json.weight_pos v
        simp only [entriesWeight, List.map_cons, List.sum_cons, List.length_cons] at h
        simp only [entriesWeight]
        omega
      simp only [collectEntries, countEntries, List.length_append]
      by_cases hc : isCoinRecord v = true
      · simp [hc, ih rest hrest pre]
      · by_cases ho : isObjectLike v = true
        · have hv : entriesWeight (jsEntries v) + (jsEntries v).length < n := by
            have h1 := jsEntries_weight_lt v
            simp only [entriesWeight, List.map_cons, List.sum_cons, List.length_cons] at h
            simp only [entriesWeight] at h1 ⊢
            omega
          simp [hc, ho, ih rest hrest pre, ih (jsEntries v) hv]
        · simp [hc, ho, ih rest hrest pre]

theorem collectEntries_length (es : List (String × Json)) (pre : String) :
    (collectEntries pre es).length = countEntries es :=
  collectEntries_length_aux (entriesWeight es + es.length + 1) es (by omega) pre

theorem setField_append_of_fresh (m : List (String × Json)) (k : String) (v : Json)
    (h : m.any (fun kv => kv.1 == k) = false) :
    setField m k v = m ++ [(k, v)] := by
  unfold setField
  rw [if_neg]
  simp [h]

theorem foldl_setKV_of_fresh :
    ∀ (L m : List (String × Json)), (L.map Prod.fst).Nodup →
      (∀ kv ∈ L, m.any (fun p => p.1 == kv.1) = false) →
      L.foldl setKV m = m ++ L := by
  intro L
  induction L with
  | nil => intro m _ _; simp
  | cons kv t ih =>
    intro m hnd hf
    have hstep : setKV m kv = m ++ [kv] := by
      rw [setKV, setField_append_of_fresh m kv.1 kv.2 (hf kv (by simp))]
    simp only [List.foldl_cons, hstep]
    rw [ih (m ++ [kv]) (by simpa using hnd.of_cons)]
    · simp
    · intro kv2 hkv2
      rw [List.any_append]
      have h1 : m.any (fun p => p.1 == kv2.1) = false := hf kv2 (by simp [hkv2])
      have h2 : kv.1 ≠ kv2.1 := by
        simp only [List.map_cons, List.nodup_cons, List.mem_map] at hnd
        intro he
        exact hnd.1 ⟨kv2, hkv2, he.symm⟩
      simp [h1, h2]

theorem replaceFirstUnderscoreList_of_not_mem (l : List Char) (h : '_' ∉ l) :
    replaceFirstUnderscoreList l = l := by
  induction l with
  | nil => rfl
  | cons c cs ih =>
    simp only [List.mem_cons, not_or] at h
    simp only [replaceFirstUnderscoreList]
    rw [if_neg (fun he => h.1 he.symm), ih h.2]

theorem replaceFirstUnderscoreList_append (l1 l2 : List Char) (h : '_' ∉ l1) :
    replaceFirstUnderscoreList (l1 ++ '_' :: l2) = l1 ++ '/' :: l2 := by
  induction l1 with
  | nil => simp [replaceFirstUnderscoreList]
  | cons c cs ih =>
    simp only [List.mem_cons, not_or] at h
    simp only [List.cons_append, replaceFirstUnderscoreList, List.append_eq]
    rw [if_neg (fun he => h.1 he.symm), ih h.2]

theorem string_data_append (s t : String) : (s ++ t).data = s.data ++ t.data := by
  cases s
  cases t
  rfl

theorem string_ne_empty_of_data (s : String) (h : s.data ≠ []) : s ≠ "" := by
  intro he
  exact h (by simp [he])

/-- Claim C1 counterexample: a 2xx response whose parsed JSON body lacks the
success marker is returned as Success (with the marker inserted), not as the
claimed Error "Invalid success response structure", because line 22 of
src/fetch.ts assigns `resp["status"] = "success"` before validating. -/
theorem fetchData_missing_marker_counterexample :
    fetchData (.response 200 (some (.obj [("foo", Json.num 1)])))
      = .ok (.obj [("foo", Json.num 1), ("status", Json.str "success")])
    ∧ fetchData (.response 200 (some (.obj [("foo", Json.num 1)])))
      ≠ .err (.error "Invalid success response structure") := by
  constructor
  · rfl
  · decide

/-- Claim C1 (amended): whenever `fetchData` yields Success the success
marker is present in the wrapped body; a 2xx response whose parsed body is a
non-null object (or array) always yields Success, even when the body lacked
the marker, because the marker is assigned before validation; and on 2xx
responses the Error "Invalid success response structure" is never produced. -/
theorem fetchData_success_marker :
    (∀ t b, fetchData t = .ok b → jsIsStr (jsGetProp b "status") "success" = true)
    ∧ (∀ status resp, resOk status = true → isObjectLike resp = true →
        ∃ b, fetchData (.response status (some resp)) = .ok b)
    ∧ (∀ status body, resOk status = true →
        fetchData (.response status body) ≠ .err (.error "Invalid success response structure")) := by
  refine ⟨?_, ?_, ?_⟩
  · intro t b h
    have hv := fetchData_ok_valid t b h
    simp only [isValidSuccessResp, Bool.and_eq_true] at hv
    exact hv.2
  · intro status resp hok hobj
    obtain ⟨r2, _, h2⟩ := fetchData_2xx_objectLike status resp hok hobj
    exact ⟨r2, h2⟩
  · intro status body hok
    exact fetchData_2xx_never_invalid status body hok

theorem fetchData_success_marker_witness :
    jsIsStr (jsGetProp (Json.obj [("foo", Json.num 1), ("status", Json.str "success")]) "status")
        "success" = true
    ∧ ∃ b, fetchData (.response 204 (some (.obj [("a", Json.str "b")]))) = .ok b := by
  constructor
  · exact fetchData_success_marker.1 (.response 200 (some (.obj [("foo", Json.num 1)]))) _ rfl
  · exact fetchData_success_marker.2.1 204 (.obj [("a", Json.str "b")]) (by decide) (by decide)

/-- Claim C9 (confirmed): for every 2xx response whose body parses to a JSON
object, `fetchData` assigns "success" to the body's `status` field before
validating and returns the body as Success regardless of the field's original
value, and the "Invalid success response structure" branch is unreachable for
such bodies. -/
theorem fetchData_status_overwrite :
    ∀ (status : Nat) (fs : List (String × Json)), resOk status = true →
      fetchData (.response status (some (.obj fs)))
        = .ok (.obj (setField fs "status" (Json.str "success")))
      ∧ fetchData (.response status (some (.obj fs)))
        ≠ .err (.error "Invalid success response structure") := by
  intro status fs hok
  obtain ⟨r2, h1, h2⟩ := fetchData_2xx_objectLike status (.obj fs) hok
    (by simp [isObjectLike, isTruthy, isTypeofObject])
  have hr2 : r2 = .obj (setField fs "status" (Json.str "success")) := by
    simpa [jsSetProp] using h1.symm
  constructor
  · rw [h2, hr2]
  · rw [h2]
    simp

theorem fetchData_status_overwrite_witness :
    fetchData (.response 200 (some (.obj [("status", Json.str "error"), ("error", Json.str "boom")])))
      = .ok (.obj [("status", Json.str "success"), ("error", Json.str "boom")]) := by
  have h := (fetchData_status_overwrite 200
    [("status", Json.str "error"), ("error", Json.str "boom")] (by decide)).1
  rw [h]
  decide

/-- Claim C6 counterexample: on a non-2xx response whose body parses to the
truthy primitive `5`, the check `resp && "error" in resp` throws a strict
TypeError (`in` applied to a number), so `fetchData` does not yield the
claimed Error carrying the generic "HTTP error! Status:" message. -/
theorem fetchData_error_primitive_counterexample :
    fetchData (.response 404 (some (Json.num 5))) = .err .typeError
    ∧ fetchData (.response 404 (some (Json.num 5)))
      ≠ .err (.error "HTTP error! Status: 404") := by
  constructor
  · rfl
  · decide

/-- Claim C6 (amended): for every non-2xx response whose parsed body is a
non-null object or array, `fetchData` yields an Error whose message is the
stringified `error` property when present and otherwise
"HTTP error! Status: " followed by the numeric status code; a falsy body
(null, false, 0, "") also yields the generic message; a truthy primitive body
instead causes a TypeError from the `in` operator. -/
theorem fetchData_non2xx_message :
    ∀ (status : Nat) (resp : Json), resOk status = false →
      (isObjectLike resp = true →
        fetchData (.response status (some resp))
          = .err (.error (if jsHasOwn resp "error" then jsToString (jsGetProp resp "error")
                          else "HTTP error! Status: " ++ toString status)))
      ∧ (isTruthy resp = false →
        fetchData (.response status (some resp))
          = .err (.error ("HTTP error! Status: " ++ toString status))) := by
  intro status resp hok
  constructor
  · intro hobj
    simp only [isObjectLike, Bool.and_eq_true] at hobj
    simp [fetchData, hok, hobj.1, hobj.2]
  · intro hf
    simp [fetchData, hok, hf]

theorem fetchData_non2xx_message_witness :
    fetchData (.response 404 (some (.obj [("status", Json.str "error"), ("error", Json.str "bad coin")])))
      = .err (.error "bad coin") := by
  have h := (fetchData_non2xx_message 404
    (.obj [("status", Json.str "error"), ("error", Json.str "bad coin")]) (by decide)).1 (by decide)
  rw [h]
  decide

/-- Claim C3 (confirmed): `fetchSupportedCoins` never lets a failure of the
underlying info call escape: whenever `fetchData` throws anything the result
is `none`, and on success the result is the flattening of the body with its
top-level `fee_tiers` key excluded first. -/
theorem fetchSupportedCoins_failure_null :
    ∀ t : Transport,
      (∀ e, fetchData t = .err e → fetchSupportedCoins t = none)
      ∧ (∀ b, fetchData t = .ok b →
          fetchSupportedCoins t = some (processServiceInfo (jsRestExclude b "fee_tiers") [] "")) := by
  intro t
  constructor
  · intro e he
    simp [fetchSupportedCoins, he]
  · intro b hb
    have hobj := fetchData_ok_objectLike t b hb
    cases b with
    | null => simp [isObjectLike, isTruthy] at hobj
    | bool c => simp [isObjectLike, isTypeofObject] at hobj
    | num n => simp [isObjectLike, isTypeofObject] at hobj
    | str s => simp [isObjectLike, isTypeofObject] at hobj
    | arr xs ps => simp [fetchSupportedCoins, hb]
    | obj fs => simp [fetchSupportedCoins, hb]

theorem fetchSupportedCoins_failure_null_witness :
    fetchSupportedCoins .netFail = none
    ∧ fetchSupportedCoins (.response 200 (some (.obj [("btc", .obj [("ticker", Json.str "btc")])])))
      = some (processServiceInfo
          (jsRestExclude (.obj [("btc", .obj [("ticker", Json.str "btc")]), ("status", Json.str "success")]) "fee_tiers")
          [] "") := by
  constructor
  · exact (fetchSupportedCoins_failure_null .netFail).1 .networkError rfl
  · exact (fetchSupportedCoins_failure_null _).2
      (.obj [("btc", .obj [("ticker", Json.str "btc")]), ("status", Json.str "success")]) rfl

theorem replaceUnderscoreOnce_of_not_mem (c : String) (h : '_' ∉ c.data) :
    replaceUnderscoreOnce c = c := by
  apply String.ext
  show (replaceFirstUnderscoreList c.data) = c.data
  exact replaceFirstUnderscoreList_of_not_mem c.data h

theorem data_split_underscore (g s : String) :
    (g ++ "_" ++ s).data = g.data ++ '_' :: s.data := by
  rw [string_data_append, string_data_append]
  simp

theorem replaceUnderscoreOnce_split (g s : String) (hg : '_' ∉ g.data) :
    replaceUnderscoreOnce (g ++ "_" ++ s) = g ++ "/" ++ s := by
  apply String.ext
  show replaceFirstUnderscoreList (g ++ "_" ++ s).data = (g ++ "/" ++ s).data
  rw [data_split_underscore, replaceFirstUnderscoreList_append g.data s.data hg,
    string_data_append, string_data_append]
  simp

/-- Claim C4 (confirmed): the target path is `{baseURL}/{endpoint}/` when no
coin is given; a coin consisting of a group and a subtype around a single
separator resolves to `{baseURL}/{group}/{subtype}/{endpoint}/`; a coin
without a separator resolves to `{baseURL}/{coin}/{endpoint}/`. -/
theorem makeRequest_url_shape :
    ∀ e : String,
      baseURL ++ makeRequestPath e none = baseURL ++ "/" ++ e ++ "/"
      ∧ (∀ g s : String, '_' ∉ g.data → '_' ∉ s.data →
          baseURL ++ makeRequestPath e (some (g ++ "_" ++ s))
            = baseURL ++ "/" ++ g ++ "/" ++ s ++ "/" ++ e ++ "/")
      ∧ (∀ c : String, c ≠ "" → '_' ∉ c.data →
          baseURL ++ makeRequestPath e (some c) = baseURL ++ "/" ++ c ++ "/" ++ e ++ "/") := by
  intro e
  refine ⟨?_, ?_, ?_⟩
  · apply String.ext
    simp [makeRequestPath, string_data_append]
  · intro g s hg hs
    have hne : (g ++ "_" ++ s) ≠ "" := by
      apply string_ne_empty_of_data
      rw [data_split_underscore]
      simp
    simp only [makeRequestPath]
    rw [if_neg hne, replaceUnderscoreOnce_split g s hg]
    apply String.ext
    simp [string_data_append]
  · intro c hc hcu
    simp only [makeRequestPath]
    rw [if_neg hc, replaceUnderscoreOnce_of_not_mem c hcu]
    apply String.ext
    simp [string_data_append]

theorem makeRequest_url_shape_witness :
    baseURL ++ makeRequestPath "create" (some ("polygon" ++ "_" ++ "usdt"))
      = baseURL ++ "/" ++ "polygon" ++ "/" ++ "usdt" ++ "/" ++ "create" ++ "/"
    ∧ baseURL ++ makeRequestPath "create" (some "btc")
      = baseURL ++ "/" ++ "btc" ++ "/" ++ "create" ++ "/" :=
  ⟨(makeRequest_url_shape "create").2.1 "polygon" "usdt" (by decide) (by decide),
   (makeRequest_url_shape "create").2.2 "btc" (by decide) (by decide)⟩

/-- Claim C5 (confirmed): on an instance with an empty coin, own address or
callback URL, `getAddress` produces the configuration error determined by the
source-order checks (coin, then callback URL, then own address), and the
result does not depend on the transport at all: no network call is made. -/
theorem getAddress_config_errors :
    ∀ st : CryptAPIState,
      st.coin = "" ∨ st.callbackUrl = "" ∨ st.ownAddress = "" →
      (∀ transport, getAddress st transport
        = (st, .error (.error (if st.coin = "" then "Coin not set"
            else if st.callbackUrl = "" then "Callback URL not set" else "Address not set"))))
      ∧ (∀ t1 t2, getAddress st t1 = getAddress st t2) := by
  intro st hst
  have hreq : getAddressRequest st = .error (if st.coin = "" then "Coin not set"
      else if st.callbackUrl = "" then "Callback URL not set" else "Address not set") := by
    unfold getAddressRequest
    rcases hst with h | h | h
    · rw [if_pos h, if_pos h]
    · by_cases hc : st.coin = ""
      · rw [if_pos hc, if_pos hc]
      · rw [if_neg hc, if_neg hc, if_pos h, if_pos h]
    · by_cases hc : st.coin = ""
      · rw [if_pos hc, if_pos hc]
      · by_cases hcb : st.callbackUrl = ""
        · rw [if_neg hc, if_neg hc, if_pos hcb, if_pos hcb]
        · rw [if_neg hc, if_neg hc, if_neg hcb, if_neg hcb, if_pos h]
  constructor
  · intro transport
    simp [getAddress, hreq]
  · intro t1 t2
    simp [getAddress, hreq]

theorem getAddress_config_errors_witness :
    getAddress ⟨"btc", "0xabc", "", [], [], Json.str ""⟩ (fun _ => .netFail)
      = (⟨"btc", "0xabc", "", [], [], Json.str ""⟩, .error (.error "Callback URL not set"))
    ∧ getAddress ⟨"btc", "0xabc", "", [], [], Json.str ""⟩ (fun _ => .netFail)
      = getAddress ⟨"btc", "0xabc", "", [], [], Json.str ""⟩
          (fun _ => .response 200 (some (.obj []))) := by
  have h := getAddress_config_errors ⟨"btc", "0xabc", "", [], [], Json.str ""⟩
    (Or.inr (Or.inl rfl))
  constructor
  · rw [h.1 (fun _ => .netFail)]
    rfl
  · exact h.2 _ _

theorem getAddressRequest_ok_guards (st : CryptAPIState) (req : Request)
    (h : getAddressRequest st = .ok req) :
    st.coin ≠ "" ∧ st.callbackUrl ≠ "" ∧ st.ownAddress ≠ "" := by
  unfold getAddressRequest at h
  split_ifs at h with h1 h2 h3
  exact ⟨h1, h2, h3⟩

/-- Claim C7 (confirmed): after a successful `getAddress` the instance's
stored payment address is exactly the returned `address_in` value, and a
subsequent `fetchQRCode` on the same instance sends exactly that value as the
`address` query parameter. -/
theorem getAddress_qrcode_roundtrip :
    ∀ st transport st1 a, getAddress st transport = (st1, Except.ok a) →
      st1.paymentAddress = a
      ∧ ∀ (value : Json) (size : Int), ∃ req,
          fetchQRCodeRequest st1 value size = .ok req
          ∧ lookupParam req "address" = some a := by
  intro st transport st1 a h
  cases hreq : getAddressRequest st with
  | error msg => simp [getAddress, hreq] at h
  | ok req0 =>
    cases hf : fetchData (transport req0) with
    | err e => simp [getAddress, hreq, hf] at h
    | ok body =>
      simp only [getAddress, hreq, hf, Prod.mk.injEq, Except.ok.injEq] at h
      obtain ⟨hst1, ha⟩ := h
      subst hst1
      subst ha
      obtain ⟨hc, hcb, ho⟩ := getAddressRequest_ok_guards st req0 hreq
      constructor
      · rfl
      · intro value size
        refine ⟨{ endpoint := "qrcode", coin := some st.coin,
                  params := [("value", value), ("size", Json.num size),
                             ("address", jsGetProp body "address_in")] }, ?_, ?_⟩
        · simp [fetchQRCodeRequest, hc, ho]
        · rw [lookupParam]
          rw [List.find?_cons_of_neg _ (by simp), List.find?_cons_of_neg _ (by simp),
            List.find?_cons_of_pos _ (by simp)]
          rfl

theorem getAddress_qrcode_roundtrip_witness :
    (⟨"btc", "0xabc", "https://cb.example", [], [], Json.str "PAYADDR"⟩ : CryptAPIState).paymentAddress
      = Json.str "PAYADDR"
    ∧ ∃ req,
        fetchQRCodeRequest ⟨"btc", "0xabc", "https://cb.example", [], [], Json.str "PAYADDR"⟩
          Json.null 512 = .ok req
        ∧ lookupParam req "address" = some (Json.str "PAYADDR") := by
  have h := getAddress_qrcode_roundtrip
    ⟨"btc", "0xabc", "https://cb.example", [], [], Json.str ""⟩
    (fun _ => .response 200 (some (.obj [("address_in", Json.str "PAYADDR")])))
    ⟨"btc", "0xabc", "https://cb.example", [], [], Json.str "PAYADDR"⟩
    (Json.str "PAYADDR") rfl
  exact ⟨h.1, h.2 Json.null 512⟩

/-- Claim C8 counterexample: `fetchQRCode` also raises a local error when the
instance's own address is empty even though the coin is non-empty, so the
claimed "local error if and only if coin is missing" is false; src/index.ts
lines 127-129 check `this.ownAddress` as well. -/
theorem fetchQRCode_address_guard_counterexample :
    (⟨"btc", "", "https://cb.example", [], [], Json.str ""⟩ : CryptAPIState).coin ≠ ""
    ∧ fetchQRCodeRequest ⟨"btc", "", "https://cb.example", [], [], Json.str ""⟩ Json.null 512
      = .error "Address not set" := by
  constructor
  · decide
  · rfl

/-- Claim C8 (amended): `fetchQRCode` raises a local error if and only if the
instance's coin or own address is empty; in particular when both are
non-empty the request proceeds to the gateway no matter what the stored
payment address is (an empty payment address does not raise locally). -/
theorem fetchQRCode_local_error_iff :
    ∀ (st : CryptAPIState) (value : Json) (size : Int),
      ((∃ m, fetchQRCodeRequest st value size = .error m)
        ↔ st.coin = "" ∨ st.ownAddress = "")
      ∧ (st.coin ≠ "" → st.ownAddress ≠ "" →
          fetchQRCodeRequest st value size
            = .ok { endpoint := "qrcode", coin := some st.coin,
                    params := [("value", value), ("size", Json.num size),
                               ("address", st.paymentAddress)] }) := by
  intro st value size
  constructor
  · constructor
    · rintro ⟨m, hm⟩
      by_cases hc : st.coin = ""
      · exact Or.inl hc
      · by_cases ho : st.ownAddress = ""
        · exact Or.inr ho
        · simp [fetchQRCodeRequest, hc, ho] at hm
    · rintro (hc | ho)
      · exact ⟨"Coin not set", by simp [fetchQRCodeRequest, hc]⟩
      · by_cases hc : st.coin = ""
        · exact ⟨"Coin not set", by simp [fetchQRCodeRequest, hc]⟩
        · exact ⟨"Address not set", by simp [fetchQRCodeRequest, hc, ho]⟩
  · intro hc ho
    simp [fetchQRCodeRequest, hc, ho]

theorem fetchQRCode_local_error_iff_witness :
    fetchQRCodeRequest ⟨"btc", "0xabc", "https://cb.example", [], [], Json.str ""⟩ Json.null 512
      = .ok { endpoint := "qrcode", coin := some "btc",
              params := [("value", Json.null), ("size", Json.num 512),
                         ("address", Json.str "")] } :=
  (fetchQRCode_local_error_iff ⟨"btc", "0xabc", "https://cb.example", [], [], Json.str ""⟩
    Json.null 512).2 (by decide) (by decide)

/-- Claim C10 (confirmed): no operation changes `coin`, `ownAddress`,
`callbackUrl`, `parameters` or `caParams`; `checkLogs` and `fetchQRCode`
leave the whole state (including `paymentAddress`) unchanged; and
`paymentAddress` is written exactly by a successful `getAddress`, which sets
it to the returned `address_in` value, while a failed `getAddress` leaves the
state unchanged. -/
theorem instance_fields_frame :
    ∀ (st : CryptAPIState) (transport : Request → Transport) (value : Json) (size : Int),
      ((getAddress st transport).1.coin = st.coin
        ∧ (getAddress st transport).1.ownAddress = st.ownAddress
        ∧ (getAddress st transport).1.callbackUrl = st.callbackUrl
        ∧ (getAddress st transport).1.parameters = st.parameters
        ∧ (getAddress st transport).1.caParams = st.caParams)
      ∧ (checkLogs st transport).1 = st
      ∧ (fetchQRCode st value size transport).1 = st
      ∧ (∀ a, (getAddress st transport).2 = .ok a →
          (getAddress st transport).1.paymentAddress = a)
      ∧ (∀ e, (getAddress st transport).2 = .error e →
          (getAddress st transport).1 = st) := by
  intro st transport value size
  refine ⟨?_, ?_, ?_, ?_, ?_⟩
  · cases hreq : getAddressRequest st with
    | error msg => simp [getAddress, hreq]
    | ok req =>
      cases hf : fetchData (transport req) with
      | err e => simp [getAddress, hreq, hf]
      | ok body => simp [getAddress, hreq, hf]
  · cases hreq : checkLogsRequest st with
    | error msg => simp [checkLogs, hreq]
    | ok req =>
      cases hf : fetchData (transport req) with
      | err e => simp [checkLogs, hreq, hf]
      | ok body => simp [checkLogs, hreq, hf]
  · cases hreq : fetchQRCodeRequest st value size with
    | error msg => simp [fetchQRCode, hreq]
    | ok req =>
      cases hf : fetchData (transport req) with
      | err e => simp [fetchQRCode, hreq, hf]
      | ok body => simp [fetchQRCode, hreq, hf]
  · intro a ha
    cases hreq : getAddressRequest st with
    | error msg => simp [getAddress, hreq] at ha
    | ok req =>
      cases hf : fetchData (transport req) with
      | err e => simp [getAddress, hreq, hf] at ha
      | ok body =>
        simp only [getAddress, hreq, hf, Except.ok.injEq] at ha
        simp [getAddress, hreq, hf, ha]
  · intro e he
    cases hreq : getAddressRequest st with
    | error msg => simp [getAddress, hreq]
    | ok req =>
      cases hf : fetchData (transport req) with
      | err e2 => simp [getAddress, hreq, hf]
      | ok body => simp [getAddress, hreq, hf] at he

theorem instance_fields_frame_witness :
    (getAddress ⟨"ltc", "Laddr", "https://cb.example", [], [], Json.str ""⟩
        (fun _ => .response 500 (some (.obj []))) ).1
      = ⟨"ltc", "Laddr", "https://cb.example", [], [], Json.str ""⟩
    ∧ (checkLogs ⟨"ltc", "Laddr", "https://cb.example", [], [], Json.str ""⟩
        (fun _ => .response 500 (some (.obj []))) ).1
      = ⟨"ltc", "Laddr", "https://cb.example", [], [], Json.str ""⟩
    ∧ (fetchQRCode ⟨"ltc", "Laddr", "https://cb.example", [], [], Json.str ""⟩ Json.null 512
        (fun _ => .response 500 (some (.obj []))) ).1
      = ⟨"ltc", "Laddr", "https://cb.example", [], [], Json.str ""⟩ := by
  have h := instance_fields_frame ⟨"ltc", "Laddr", "https://cb.example", [], [], Json.str ""⟩
    (fun _ => .response 500 (some (.obj []))) Json.null 512
  exact ⟨h.2.2.2.2 (.error "HTTP error! Status: 500") rfl, h.2.1, h.2.2.1⟩

/-- Claim C2 counterexample: the flattener does not always produce exactly
one mapping entry per ticker-bearing leaf: when two leaves flatten to the
same path key, the later JS assignment overwrites the earlier entry, so this
input with two ticker leaves yields a single entry. -/
theorem processServiceInfo_collision_counterexample :
    processServiceInfo
        (.obj [("a", .obj [("b", .obj [("ticker", Json.str "x")])]),
               ("a_b", .obj [("ticker", Json.str "y")])]) [] ""
      = [("a_b", Json.str "y")]
    ∧ countTickerLeaves
        (.obj [("a", .obj [("b", .obj [("ticker", Json.str "x")])]),
               ("a_b", .obj [("ticker", Json.str "y")])]) = 2 := by
  constructor
  · simp [processServiceInfo, processEntries, jsEntries, isCoinRecord, isObjectLike,
      isTruthy, isTypeofObject, jsHasOwn, jsGetProp, setField]
  · simp [countTickerLeaves, countEntries, jsEntries, isCoinRecord, isObjectLike,
      isTruthy, isTypeofObject, jsHasOwn]

/-- Claim C2 (amended): the flattener processes the entries in input key
order, depth-first: a value that is an object with a `ticker` property
records `prefix + key -> ticker`; a non-null object (or array) without
`ticker` is recursed into with `prefix + key + "_"` at arbitrary depth;
scalars and null add nothing.  Its result is exactly the fold of the JS
assignments of the specification-side entry list `collectTickers`, which has
one entry per ticker-bearing leaf; consequently, the accumulator starting
empty receives exactly one mapping entry per such leaf provided the flattened
path keys are pairwise distinct (a later colliding key otherwise overwrites
the earlier entry). -/
theorem processServiceInfo_flatten_spec :
    ∀ (info : Json) (coins : List (String × Json)) (pre : String),
      processServiceInfo info coins pre = (collectTickers pre info).foldl setKV coins
      ∧ (collectTickers pre info).length = countTickerLeaves info
      ∧ (((collectTickers pre info).map Prod.fst).Nodup →
          processServiceInfo info [] pre = collectTickers pre info) := by
  intro info coins pre
  refine ⟨processEntries_eq_foldl (jsEntries info) coins pre,
    collectEntries_length (jsEntries info) pre, ?_⟩
  intro hnd
  show processEntries (jsEntries info) [] pre = collectEntries pre (jsEntries info)
  rw [processEntries_eq_foldl (jsEntries info) [] pre,
    foldl_setKV_of_fresh (collectEntries pre (jsEntries info)) [] hnd (fun kv _ => rfl)]
  exact List.nil_append _

theorem processServiceInfo_flatten_spec_witness :
    processServiceInfo
        (.obj [("polygon", .obj [("usdt", .obj [("ticker", Json.str "usdt")])]),
               ("minimum", Json.num 5)]) [] ""
      = [("polygon_usdt", Json.str "usdt")]
    ∧ countTickerLeaves
        (.obj [("polygon", .obj [("usdt", .obj [("ticker", Json.str "usdt")])]),
               ("minimum", Json.num 5)]) = 1 := by
  have h := processServiceInfo_flatten_spec
    (.obj [("polygon", .obj [("usdt", .obj [("ticker", Json.str "usdt")])]),
           ("minimum", Json.num 5)]) [] ""
  have hcol : collectTickers ""
      (.obj [("polygon", .obj [("usdt", .obj [("ticker", Json.str "usdt")])]),
             ("minimum", Json.num 5)])
      = [("polygon_usdt", Json.str "usdt")] := by
    simp [collectTickers, collectEntries, jsEntries, isCoinRecord, isObjectLike,
      isTruthy, isTypeofObject, jsHasOwn, jsGetProp]
  constructor
  · rw [h.2.2 (by rw [hcol]; simp), hcol]
  · rw [← h.2.1, hcol]
    rfl
